import Mathlib

/-!
# Verification of the YourResume GitHub collection/enrichment/scoring core

Shallow embedding of `src/services/githubService.ts` (commit under review).
JS strings are modelled as `List Char`; JS numbers appearing in integral
positions as `Int`/`Nat`, and the two floating-point divisions of the source
(contribution ratio, day counts, KB counts) as exact rationals `ℚ` — at every
concrete input used in a theorem below the IEEE-754 comparison of the source
agrees with the rational one.  Fields that the source guards with
`typeof x === 'number'` (or similar) are modelled as `Option` with the
source's default applied at use sites.  Case folding models the ASCII
behaviour of `String.prototype.toLowerCase`.
-/

/-- JS strings, modelled as lists of characters. -/
abbrev Str := List Char

/-- `String.prototype.toLowerCase`, ASCII case folding. -/
def jsToLower (s : Str) : Str := s.map Char.toLower

/-- The JS `\s` character class (the members exercised by this codebase). -/
def isJsWs (c : Char) : Bool :=
  c = ' ' || c = '\t' || c = '\n' || c = '\r' || c = '\x0b' || c = '\x0c' || c = ' '

/-- `String.prototype.trim`: strip leading and trailing whitespace. -/
def jsTrim (s : Str) : Str :=
  ((s.dropWhile isJsWs).reverse.dropWhile isJsWs).reverse

/-- `String.prototype.split` with a single-character separator:
`"a/b".split('/') = ["a","b"]`, `"".split('/') = [""]`, `"a/".split('/') = ["a",""]`. -/
def jsSplit (sep : Char) : Str → List Str
  | [] => [[]]
  | c :: rest =>
    let r := jsSplit sep rest
    if c = sep then [] :: r
    else
      match r with
      | h :: t => (c :: h) :: t
      | [] => [[c]]

/-- Helper for `jsSetDedup`: keeps elements not yet seen, in order. -/
def jsSetDedupAux {α : Type} [DecidableEq α] (seen : List α) : List α → List α
  | [] => []
  | a :: rest =>
    if a ∈ seen then jsSetDedupAux seen rest
    else a :: jsSetDedupAux (a :: seen) rest

/-- `[...new Set(l)]`: deduplication keeping first occurrences, in order. -/
def jsSetDedup {α : Type} [DecidableEq α] (l : List α) : List α := jsSetDedupAux [] l

/-- Substring containment, `String.prototype.includes`. -/
def jsIncludes (hay needle : Str) : Bool :=
  needle.isPrefixOf hay ||
    match hay with
    | [] => false
    | _ :: t => jsIncludes t needle


/-! ## Manifest parsers (`githubService.ts` lines 116–311)

Each JS regex is hand-compiled to a character-level scanner.  All the regexes
of this file are deterministic under backtracking (each greedy piece excludes
the characters the following piece requires), so maximal-munch scanning is
exact. -/

/-- The regex class `[a-zA-Z0-9_-]`. -/
def isPkgChar (c : Char) : Bool := c.isAlphanum || c = '_' || c = '-'

/-- A single-quote character (written via its code point). -/
def squote : Char := Char.ofNat 39

def isQuote (c : Char) : Bool := c = squote || c = '"'

/-- `parseRequirementsTxt` line match `^([a-zA-Z0-9_-]+)`. -/
def reqLineDep (line : Str) : Option Str :=
  let m := line.takeWhile isPkgChar
  if m.isEmpty then none else some m

/-- `parseRequirementsTxt` (lines 116–132): split lines, take 500, trim, drop
comments/blank/overlong lines, extract the leading identifier, keep those of
length in (0, 100).  Note: no deduplication is performed by the source. -/
def parseRequirementsTxt (content : Str) : List Str :=
  if content.isEmpty || decide (100000 < content.length) then []
  else
    (((((jsSplit '\n' content).take 500).map jsTrim).filter
        (fun line => !line.isEmpty && !(List.isPrefixOf "#".toList line) &&
          decide (line.length < 200))).map reqLineDep).filterMap
      (fun o =>
        match o with
        | some pkg => if 0 < pkg.length ∧ pkg.length < 100 then some pkg else none
        | none => none)

/-- The regex class `[alnum dot underscore slash dash]` of the go.mod line match. -/
def goModChar (c : Char) : Bool := c.isAlphanum || c = '.' || c = '_' || c = '/' || c = '-'

/-- Tail `([alnum dot underscore slash dash]+)\s+v` of the go.mod line regex, returning the capture. -/
def goModTail (s : Str) : Option Str :=
  let run := s.takeWhile goModChar
  if run.isEmpty then none
  else
    let after := s.drop run.length
    let ws := after.takeWhile isJsWs
    if ws.isEmpty then none
    else
      match after.drop ws.length with
      | 'v' :: _ => some run
      | _ => none

/-- One go.mod line against `^\s*(?:require\s+)?([alnum dot underscore slash dash]+)\s+v`: the
optional `require` group is tried first; if it fails the engine backtracks to
matching the capture group directly at the same position. -/
def goModLineMatch (line : Str) : Option Str :=
  let rest := line.dropWhile isJsWs
  let withReq :=
    if List.isPrefixOf "require".toList rest then
      let after := rest.drop 7
      let ws := after.takeWhile isJsWs
      if ws.isEmpty then none else goModTail (after.drop ws.length)
    else none
  match withReq with
  | some r => some r
  | none => goModTail rest

def goModLineDep (line : Str) : Option Str :=
  match goModLineMatch line with
  | none => none
  | some run =>
    let pkg := (jsSplit '/' run).getLastD []
    if !pkg.isEmpty && decide (pkg.length < 50) then some pkg else none

/-- `parseGoMod` (lines 135–153). -/
def parseGoMod (content : Str) : List Str :=
  if content.isEmpty || decide (100000 < content.length) then []
  else (jsSetDedup ((jsSplit '\n' content).filterMap goModLineDep)).take 100

/-- Cargo.toml key line `^([a-zA-Z0-9_-]+)\s*=`. -/
def cargoKeyMatch (line : Str) : Option Str :=
  let run := line.takeWhile isPkgChar
  if run.isEmpty then none
  else
    match (line.drop run.length).dropWhile isJsWs with
    | '=' :: _ => some run
    | _ => none

/-- One line of the Cargo.toml state machine (`inDeps` flag, collected deps). -/
def cargoStep (st : Bool × List Str) (line : Str) : Bool × List Str :=
  if List.isPrefixOf "[dependencies]".toList line
      || List.isPrefixOf "[dev-dependencies]".toList line then (true, st.2)
  else if List.isPrefixOf "[".toList line then (false, st.2)
  else if st.1 then
    match cargoKeyMatch line with
    | some k => if decide (k.length < 50) then (st.1, st.2 ++ [k]) else (st.1, st.2)
    | none => (st.1, st.2)
  else st

/-- `parseCargoToml` (lines 156–179). -/
def parseCargoToml (content : Str) : List Str :=
  if content.isEmpty || decide (100000 < content.length) then []
  else (jsSetDedup ((jsSplit '\n' content).foldl cargoStep (false, [])).2).take 100

/-- Gemfile line `^\s*gem\s+['"]([a-zA-Z0-9_-]+)['"]`. -/
def gemLineMatch (line : Str) : Option Str :=
  let rest := line.dropWhile isJsWs
  if List.isPrefixOf "gem".toList rest then
    let after := rest.drop 3
    let ws := after.takeWhile isJsWs
    if ws.isEmpty then none
    else
      match after.drop ws.length with
      | q :: rest2 =>
        if isQuote q then
          let run := rest2.takeWhile isPkgChar
          if run.isEmpty then none
          else
            match rest2.drop run.length with
            | q2 :: _ => if isQuote q2 then some run else none
            | [] => none
        else none
      | [] => none
  else none

/-- `parseGemfile` (lines 214–227). -/
def parseGemfile (content : Str) : List Str :=
  if content.isEmpty || decide (100000 < content.length) then []
  else
    (jsSetDedup ((jsSplit '\n' content).filterMap
      (fun line =>
        match gemLineMatch line with
        | some k => if decide (k.length < 50) then some k else none
        | none => none))).take 100

/-- Global regex scanning (`matchAll`): at each position try `step`; on a match
emit the capture and resume after the match, otherwise advance one character.
`fuel` is initialised to the string length; every successful step of the
scanners below consumes at least one character, so the fuel never runs out
before the string does. -/
def scanAll {β : Type} (step : Str → Option (β × Str)) : Nat → Str → List β
  | 0, _ => []
  | _, [] => []
  | fuel + 1, s =>
    match step s with
    | some (b, remaining) => b :: scanAll step fuel remaining
    | none => scanAll step fuel s.tail

/-- Non-global `match`: result of the first position where `step` succeeds. -/
def scanFirst {β : Type} (step : Str → Option β) : Nat → Str → Option β
  | 0, _ => none
  | _, [] => none
  | fuel + 1, s =>
    match step s with
    | some b => some b
    | none => scanFirst step fuel s.tail

/-- One attempt of `<artifactId>([^<]+)<\/artifactId>` at the current position. -/
def pomStep (s : Str) : Option (Str × Str) :=
  if List.isPrefixOf "<artifactId>".toList s then
    let body := (s.drop 12).takeWhile (fun c => c ≠ '<')
    if body.isEmpty then none
    else
      let after := s.drop (12 + body.length)
      if List.isPrefixOf "</artifactId>".toList after then some (body, after.drop 13)
      else none
  else none

/-- `parsePomXml` (lines 182–195). -/
def parsePomXml (content : Str) : List Str :=
  if content.isEmpty || decide (500000 < content.length) then []
  else
    (jsSetDedup ((scanAll pomStep content.length content).filter
      (fun b => decide (b.length < 50) && !b.contains '$'))).take 100

/-- The Gradle configuration keywords, in the source's alternation order (the
four names start with pairwise distinct letters, so at most one can match at
any position). -/
def gradleKeywords : List Str :=
  ["implementation".toList, "compile".toList, "api".toList, "testImplementation".toList]

/-- The regex class `[^'"():]`, complemented. -/
def gradleBad (c : Char) : Bool := c = squote || c = '"' || c = '(' || c = ')' || c = ':'

/-- `\s*['"(]([^'"():]+):([^'"():]+)` after a configuration keyword. -/
def gradleAfterKw (s : Str) : Option (Str × Str) :=
  match s.dropWhile isJsWs with
  | q :: rest =>
    if q = squote || q = '"' || q = '(' then
      let g1 := rest.takeWhile (fun c => !gradleBad c)
      if g1.isEmpty then none
      else
        match rest.drop g1.length with
        | ':' :: rest2 =>
          let g2 := rest2.takeWhile (fun c => !gradleBad c)
          if g2.isEmpty then none else some (g2, rest2.drop g2.length)
        | _ => none
    else none
  | [] => none

def gradleStep (s : Str) : Option (Str × Str) :=
  match gradleKeywords.find? (fun kw => List.isPrefixOf kw s) with
  | some kw => gradleAfterKw (s.drop kw.length)
  | none => none

/-- `parseBuildGradle` (lines 198–211): collects the artifact (second capture). -/
def parseBuildGradle (content : Str) : List Str :=
  if content.isEmpty || decide (200000 < content.length) then []
  else
    (jsSetDedup ((scanAll gradleStep content.length content).filter
      (fun g2 => decide (g2.length < 50)))).take 100

/-- Case-insensitive literal prefix (pattern given in lowercase). -/
def ciIsPrefixOf (pat s : Str) : Bool := jsToLower (s.take pat.length) == pat

/-- The regex class `[a-zA-Z0-9_]`. -/
def cmakeIdChar (c : Char) : Bool := c.isAlphanum || c = '_'

/-- One attempt of `find_package\s*\(\s*([a-zA-Z0-9_]+)` (flags `gi`). -/
def cmakeStep (s : Str) : Option (Str × Str) :=
  if ciIsPrefixOf "find_package".toList s then
    match (s.drop 12).dropWhile isJsWs with
    | '(' :: rest =>
      let t2 := rest.dropWhile isJsWs
      let run := t2.takeWhile cmakeIdChar
      if run.isEmpty then none else some (run, t2.drop run.length)
    | _ => none
  else none

/-- `parseCMakeLists` (lines 230–241). -/
def parseCMakeLists (content : Str) : List Str :=
  if content.isEmpty || decide (200000 < content.length) then []
  else
    (jsSetDedup ((scanAll cmakeStep content.length content).filter
      (fun r => decide (r.length < 50)))).take 100

/-- One attempt of `install_requires\s*=\s*\[([\s\S]*?)\]`: the lazy capture is
the text up to the first `]` after the opening bracket (failing if none). -/
def setupBlockStep (s : Str) : Option Str :=
  if List.isPrefixOf "install_requires".toList s then
    match (s.drop 16).dropWhile isJsWs with
    | '=' :: rest =>
      match rest.dropWhile isJsWs with
      | '[' :: rest2 =>
        let inner := rest2.takeWhile (fun c => c ≠ ']')
        match rest2.drop inner.length with
        | ']' :: _ => some inner
        | _ => none
      | _ => none
    | _ => none
  else none

/-- One attempt of `['"]([a-zA-Z0-9_-]+)` (no closing quote required). -/
def quotedNameStep (s : Str) : Option (Str × Str) :=
  match s with
  | q :: rest =>
    if isQuote q then
      let run := rest.takeWhile isPkgChar
      if run.isEmpty then none else some (run, rest.drop run.length)
    else none
  | [] => none

/-- `parseSetupPy` (lines 283–297). -/
def parseSetupPy (content : Str) : List Str :=
  if content.isEmpty || decide (100000 < content.length) then []
  else
    match scanFirst setupBlockStep content.length content with
    | none => []
    | some inner =>
      (jsSetDedup ((scanAll quotedNameStep inner.length inner).filter
        (fun r => decide (r.length < 50)))).take 100

/-- The terminator class `[><=!~]|["']` of the pyproject.toml regex. -/
def pyprojTermChar (c : Char) : Bool :=
  c = '>' || c = '<' || c = '=' || c = '!' || c = '~' || isQuote c

/-- One attempt of `["']([a-zA-Z0-9_-]+)(?:[><=!~]|["'])`. -/
def pyprojStep (s : Str) : Option (Str × Str) :=
  match s with
  | q :: rest =>
    if isQuote q then
      let run := rest.takeWhile isPkgChar
      if run.isEmpty then none
      else
        match rest.drop run.length with
        | t :: rest2 => if pyprojTermChar t then some (run, rest2) else none
        | [] => none
    else none
  | [] => none

/-- `parsePyprojectToml` (lines 300–311). -/
def parsePyprojectToml (content : Str) : List Str :=
  if content.isEmpty || decide (100000 < content.length) then []
  else
    (jsSetDedup ((scanAll pyprojStep content.length content).filter
      (fun r => decide (r.length < 50) && decide (1 < r.length)))).take 100


/-! ## JSON values and the two JSON-based parsers

`parsePackageJson` and `parseJupyterNotebook` first run `JSON.parse` on their
input.  The parse itself is an environment facility; the functions are
modelled over its result (`none` models a parse exception).  JS runtime
guarantee used later as a hypothesis: objects produced by `JSON.parse` have
pairwise-distinct keys. -/

inductive Json where
  | str (s : Str)
  | num (n : Int)
  | bool (b : Bool)
  | null
  | arr (elems : List Json)
  | obj (entries : List (Str × Json))

/-- JS truthiness of a parsed JSON value. -/
def jsTruthy : Json → Bool
  | .str s => !s.isEmpty
  | .num n => n != 0
  | .bool b => b
  | .null => false
  | .arr _ => true
  | .obj _ => true

/-- Property access `j[key]` (non-objects and absent keys give `undefined`). -/
def jsGet : Json → Str → Option Json
  | .obj entries, key => (entries.find? (fun e => e.1 == key)).map Prod.snd
  | _, _ => none

/-- `v || dflt`. -/
def jsTruthyOr (o : Option Json) (dflt : Json) : Json :=
  match o with
  | some v => if jsTruthy v then v else dflt
  | none => dflt

/-- Decimal digit character. -/
def decChar (d : Nat) : Char := Char.ofNat (48 + d)

/-- Decimal rendering of a natural number (JS array-index property keys). -/
def natKey (n : Nat) : Str :=
  if n = 0 then ['0'] else ((Nat.digits 10 n).map decChar).reverse

/-- JS integer-to-string. -/
def intStr (n : Int) : Str :=
  if n < 0 then '-' :: natKey n.natAbs else natKey n.natAbs

/-- `Object.keys`: own enumerable keys — entry keys for objects, index keys
for arrays and strings, none for other primitives. -/
def jsObjKeys : Json → List Str
  | .obj entries => entries.map Prod.fst
  | .arr l => (List.range l.length).map natKey
  | .str s => (List.range s.length).map natKey
  | _ => []

/-- `Object.keys(j[key] || {})`. -/
def propKeys (j : Json) (key : Str) : List Str :=
  jsObjKeys (jsTruthyOr (jsGet j key) (Json.obj []))

structure PkgManifest where
  dependencies : List Str
  devDependencies : List Str
  scripts : List Str
  description : Option Str

/-- `parsePackageJson` (lines 85–113), over the `JSON.parse` result of
`content` (`none` = parse threw).  The `typeof pkg !== 'object' || pkg ===
null` guard admits exactly parsed objects and arrays. -/
def parsePackageJson (content : Str) (parsed : Option Json) : Option PkgManifest :=
  if content.isEmpty || decide (500000 < content.length) then none
  else
    match parsed with
    | none => none
    | some pkg =>
      if (match pkg with | Json.obj _ => true | Json.arr _ => true | _ => false) then
        some
          { dependencies := (propKeys pkg "dependencies".toList).take 200
            devDependencies := (propKeys pkg "devDependencies".toList).take 200
            scripts := (propKeys pkg "scripts".toList).take 50
            description :=
              match jsGet pkg "description".toList with
              | some (Json.str s) => some (s.take 500)
              | _ => none }
      else none

/-- The key lists of a parsed-JSON object are pairwise distinct — a JS
runtime invariant of `JSON.parse` output, not enforceable in the `Json`
model itself; used as a hypothesis where `Object.keys` is taken. -/
def jsonKeysNodup : Json → Prop
  | Json.obj entries => (entries.map Prod.fst).Nodup
  | _ => True

/-- The `JSON.parse` runtime invariant for the three objects whose keys
`parsePackageJson` reads. -/
def PkgWF : Option Json → Prop
  | none => True
  | some j =>
    jsonKeysNodup (jsTruthyOr (jsGet j "dependencies".toList) (Json.obj [])) ∧
    jsonKeysNodup (jsTruthyOr (jsGet j "devDependencies".toList) (Json.obj [])) ∧
    jsonKeysNodup (jsTruthyOr (jsGet j "scripts".toList) (Json.obj []))

mutual
/-- `Array.prototype.join` element conversion: `null` becomes empty, nested
arrays join with a comma separator, objects print as `[object Object]`. -/
def joinElemStr : Json → Str
  | .str s => s
  | .num n => intStr n
  | .bool b => if b then "true".toList else "false".toList
  | .null => []
  | .arr l => joinCommaList l
  | .obj _ => "[object Object]".toList

def joinCommaList : List Json → Str
  | [] => []
  | [x] => joinElemStr x
  | x :: y :: xs => joinElemStr x ++ ',' :: joinCommaList (y :: xs)
end

/-- `cell.source.join('')`. -/
def joinEmpty (l : List Json) : Str := (l.map joinElemStr).flatten

structure NotebookInfo where
  imports : List Str
  isML : Bool
  isDataScience : Bool

/-- One attempt of `(?:import|from)\s+([a-zA-Z0-9_]+)` (the two keywords start
with different letters, so at most one alternative applies per position). -/
def importStep (s : Str) : Option (Str × Str) :=
  let tryKw : Str → Option (Str × Str) := fun rest =>
    let ws := rest.takeWhile isJsWs
    if ws.isEmpty then none
    else
      let t := rest.drop ws.length
      let run := t.takeWhile cmakeIdChar
      if run.isEmpty then none else some (run, t.drop run.length)
  if List.isPrefixOf "import".toList s then tryKw (s.drop 6)
  else if List.isPrefixOf "from".toList s then tryKw (s.drop 4)
  else none

/-- `Array.isArray(cell.source) ? cell.source.join('') : cell.source || ''`;
`none` models the `TypeError` of calling `.matchAll` on a truthy non-string. -/
def cellSource (cell : Json) : Option Str :=
  match jsGet cell "source".toList with
  | some (Json.arr l) => some (joinEmpty l)
  | some (Json.str s) => some s
  | some v => if jsTruthy v then none else some []
  | none => some []

/-- Imports contributed by one notebook cell (`none` = a thrown `TypeError`). -/
def cellImports (cell : Json) : Option (List Str) :=
  match jsGet cell "cell_type".toList with
  | some (Json.str t) =>
    if t = "code".toList then
      match cellSource cell with
      | none => none
      | some src =>
        some ((scanAll importStep src.length src).filter (fun r => decide (r.length < 50)))
    else some []
  | _ => some []

def collectImports : List Json → Option (List Str)
  | [] => some []
  | c :: cs =>
    match cellImports c with
    | none => none
    | some im =>
      match collectImports cs with
      | none => none
      | some rest => some (im ++ rest)

/-- `notebook.cells || []` followed by `for (const cell of cells)`: iterates
arrays (and, per the iteration protocol, strings — character by character);
truthy non-iterables throw (`none`). -/
def notebookCells (nb : Json) : Option (List Json) :=
  match jsTruthyOr (jsGet nb "cells".toList) (Json.arr []) with
  | Json.arr l => some l
  | Json.str s => some (s.map (fun c => Json.str [c]))
  | Json.obj _ => none
  | Json.num _ => none
  | Json.bool _ => none
  | Json.null => some []

def mlLibs : List Str :=
  (["tensorflow", "torch", "pytorch", "keras", "sklearn", "xgboost", "lightgbm",
    "transformers", "huggingface"]).map String.toList

def dsLibs : List Str :=
  (["pandas", "numpy", "matplotlib", "seaborn", "plotly", "scipy", "statsmodels"]).map
    String.toList

/-- `parseJupyterNotebook` (lines 244–280), over the `JSON.parse` result of
`content`; any thrown `TypeError` during cell iteration lands in the
function's own `catch` and yields the default record. -/
def parseJupyterNotebook (content : Str) (parsed : Option Json) : NotebookInfo :=
  if content.isEmpty || decide (5000000 < content.length) then ⟨[], false, false⟩
  else
    match parsed with
    | none => ⟨[], false, false⟩
    | some nb =>
      match notebookCells nb with
      | none => ⟨[], false, false⟩
      | some cells =>
        match collectImports cells with
        | none => ⟨[], false, false⟩
        | some imports =>
          let uniqueImports := jsSetDedup imports
          let isML := uniqueImports.any (fun imp => mlLibs.contains (jsToLower imp))
          let isDS := uniqueImports.any (fun imp => dsLibs.contains (jsToLower imp))
          ⟨uniqueImports.take 100, isML, isDS⟩


/-! ## README heuristics (`parseReadme`, lines 314–366)

Note which inputs each piece reads in the source: `projectType`, `hasDemo`,
`hasDocs` read the lowercased 50KB-truncated text; `hasMetrics`,
`complexity` (word count, headers, images) and the technology `mentions`
regex all read the untruncated `content`. -/

/-- The JS regex `.` (anything but a line terminator). -/
def isJsDot (c : Char) : Bool := !(c = '\n' || c = '\r' || c = ' ' || c = ' ')

/-- Test of a pattern `a.?b` at one position. -/
def optCharBetweenAt (a b s : Str) : Bool :=
  List.isPrefixOf a s &&
    (let t := s.drop a.length
     List.isPrefixOf b t ||
       match t with
       | c :: t2 => isJsDot c && List.isPrefixOf b t2
       | [] => false)

/-- Existence test of a pattern `a.?b` anywhere in the string. -/
def optCharBetween (a b : Str) : Str → Bool
  | [] => false
  | s@(_ :: t) => optCharBetweenAt a b s || optCharBetween a b t

/-- Existence test of an alternation of literal words. -/
def anyInfix (words : List Str) (s : Str) : Bool := words.any (fun w => jsIncludes s w)

/-- The `projectType` cascade: each matching test overrides the previous. -/
def projectTypeOf (lower : Str) : Str :=
  let p := "application".toList
  let p := if anyInfix ["library".toList, "package".toList, "npm".toList, "pypi".toList,
      "gem".toList] lower then "library".toList else p
  let p := if anyInfix ["api".toList, "backend".toList, "server".toList,
      "microservice".toList] lower then "api".toList else p
  let p := if anyInfix ["cli".toList, "terminal".toList] lower ||
      optCharBetween "command".toList "line".toList lower then "cli-tool".toList else p
  let p := if anyInfix ["dashboard".toList, "admin".toList, "panel".toList] lower then
      "dashboard".toList else p
  let p := if anyInfix ["mobile".toList, "ios".toList, "android".toList] lower ||
      optCharBetween "react".toList "native".toList lower then "mobile-app".toList else p
  let p := if anyInfix ["website".toList, "landing".toList, "portfolio".toList] lower then
      "website".toList else p
  p

def metricsWords : List Str :=
  (["users", "requests", "downloads", "stars", "contributors", "companies"]).map String.toList

/-- One attempt of `\d+\+?\s*(users|requests|downloads|stars|contributors|companies)`
(flag `i`); the greedy pieces exclude each other's leading characters, so
maximal-munch is exact. -/
def metricsAt (s : Str) : Bool :=
  let ds := s.takeWhile Char.isDigit
  if ds.isEmpty then false
  else
    let t := s.drop ds.length
    let t2 := match t with | '+' :: r => r | _ => t
    let t3 := t2.dropWhile isJsWs
    metricsWords.any (fun w => ciIsPrefixOf w t3)

/-- `test` of the metrics regex over the whole string. -/
def metricsTest : Str → Bool
  | [] => false
  | s@(_ :: rest) => metricsAt s || metricsTest rest

/-- Number of maximal whitespace runs; `content.split(/\s+/).length` is this
plus one (leading/trailing whitespace contributes empty fragments). -/
def wsRunsAux : Bool → Str → Nat
  | _, [] => 0
  | prevWs, c :: rest =>
    if isJsWs c then (if prevWs then 0 else 1) + wsRunsAux true rest
    else wsRunsAux false rest

def jsSplitWsLen (s : Str) : Nat := wsRunsAux false s + 1

/-- Scan for a `)` reachable through non-terminator characters. -/
def seekCloseParen : Str → Bool
  | [] => false
  | ')' :: _ => true
  | c :: rest => isJsDot c && seekCloseParen rest

/-- Scan for `](` reachable through non-terminator characters. -/
def seekBracketParen : Str → Option Str
  | [] => none
  | ']' :: '(' :: rest => some rest
  | c :: rest => if isJsDot c then seekBracketParen rest else none

/-- One attempt of the image regex `!\[.*\]\(.*\)`. -/
def imgAt : Str → Bool
  | '!' :: '[' :: rest =>
    (match seekBracketParen rest with
     | some rest2 => seekCloseParen rest2
     | none => false)
  | _ => false

/-- `test` of the image regex over the whole string. -/
def imgTest : Str → Bool
  | [] => false
  | s@(_ :: rest) => imgAt s || imgTest rest

/-- `^#{2,3}\s` at one line start (greedy `{2,3}` with backtracking). -/
def sectionAt (s : Str) : Bool :=
  match s with
  | '#' :: '#' :: t =>
    (match t with
     | '#' :: c :: _ => isJsWs c
     | c :: _ => isJsWs c
     | [] => false)
  | _ => false

/-- Advance to the suffix following the next line terminator (`m`-flag `^`). -/
def nextLineStart : Str → Option Str
  | [] => none
  | c :: rest => if c = '\n' || c = '\r' then some rest else nextLineStart rest

def sectionCountAux : Nat → Str → Nat
  | 0, _ => 0
  | fuel + 1, s =>
    let cnt := if sectionAt s then 1 else 0
    match nextLineStart s with
    | none => cnt
    | some rest => cnt + sectionCountAux fuel rest

/-- `(content.match(/^#{2,3}\s/gm) || []).length`. -/
def sectionCount (s : Str) : Nat := sectionCountAux (s.length + 1) s

/-- The three-tier complexity estimate (lines 342–348). -/
def complexityOf (content : Str) : Str :=
  let wordCount := jsSplitWsLen content
  let hasDiagrams := imgTest content
  let hasSections := sectionCount content
  let c := "simple".toList
  let c := if wordCount > 500 || hasSections > 5 then "moderate".toList else c
  let c := if wordCount > 1500 || hasSections > 10 || hasDiagrams then "complex".toList else c
  c

/-- Atoms of the technology-mention regex: case-insensitive literal
characters, an optional literal dot, an optional whitespace character. -/
inductive MAtom where
  | lit (c : Char)
  | optDot
  | optWs

def lits (s : Str) : List MAtom := s.map MAtom.lit

/-- The alternatives of the technology regex (line 351), in source order. -/
def techAlternatives : List (List MAtom) :=
  [lits "react".toList, lits "vue".toList, lits "angular".toList, lits "svelte".toList,
   lits "next".toList ++ [MAtom.optDot] ++ lits "js".toList,
   lits "nuxt".toList,
   lits "node".toList ++ [MAtom.optDot] ++ lits "js".toList,
   lits "express".toList, lits "koa".toList, lits "fastify".toList, lits "django".toList,
   lits "flask".toList, lits "fastapi".toList, lits "spring".toList, lits "laravel".toList,
   lits "rails".toList, lits "docker".toList, lits "kubernetes".toList, lits "aws".toList,
   lits "gcp".toList, lits "azure".toList, lits "heroku".toList, lits "vercel".toList,
   lits "netlify".toList, lits "postgresql".toList, lits "mysql".toList, lits "mongodb".toList,
   lits "redis".toList, lits "elasticsearch".toList, lits "graphql".toList,
   lits "rest".toList ++ [MAtom.optWs] ++ lits "api".toList,
   lits "grpc".toList, lits "typescript".toList, lits "javascript".toList,
   lits "python".toList, lits "java".toList, lits "go".toList, lits "golang".toList,
   lits "rust".toList, lits "c++".toList, lits "swift".toList, lits "kotlin".toList,
   lits "php".toList, lits "ruby".toList, lits "terraform".toList, lits "ansible".toList,
   lits "jenkins".toList,
   lits "github".toList ++ [MAtom.optWs] ++ lits "actions".toList,
   lits "ci/cd".toList,
   lits "webpack".toList, lits "vite".toList, lits "rollup".toList, lits "jest".toList,
   lits "mocha".toList, lits "pytest".toList, lits "junit".toList]

/-- Match a sequence of atoms at the head of `s`, returning the matched
length; optional atoms are greedy with backtracking.  Every optional atom in
`techAlternatives` is followed by a literal that cannot equal the optional's
character, so the result is the regex's. -/
def matchAtoms : List MAtom → Str → Option Nat
  | [], _ => some 0
  | MAtom.lit c :: ps, x :: xs =>
    if x.toLower = c then (matchAtoms ps xs).map (· + 1) else none
  | MAtom.lit _ :: _, [] => none
  | MAtom.optDot :: ps, s =>
    (match s with
     | '.' :: xs =>
       (match matchAtoms ps xs with
        | some n => some (n + 1)
        | none => matchAtoms ps s)
     | _ => matchAtoms ps s)
  | MAtom.optWs :: ps, s =>
    (match s with
     | x :: xs =>
       if isJsWs x then
         (match matchAtoms ps xs with
          | some n => some (n + 1)
          | none => matchAtoms ps s)
       else matchAtoms ps s
     | [] => matchAtoms ps s)

/-- The JS `\w` class. -/
def isWordChar (c : Char) : Bool := c.isAlphanum || c = '_'

/-- First alternative matching at this position whose match also ends at a
word boundary (the leading boundary is checked by the caller). -/
def mentionTryAt (s : Str) : Option (Str × Str) :=
  (techAlternatives.filterMap (fun alt =>
    match matchAtoms alt s with
    | some n =>
      let matched := s.take n
      let lastC := matched.getLastD ' '
      let nextWord := match s.drop n with | c :: _ => isWordChar c | [] => false
      if isWordChar lastC != nextWord then some (matched, s.drop n) else none
    | none => none)).head?

/-- `matchAll` scan of the technology regex; `prev` is the character before
the current position, for the leading word boundary. -/
def mentionScanAux : Nat → Option Char → Str → List Str
  | 0, _, _ => []
  | _, _, [] => []
  | fuel + 1, prev, s@(x :: rest) =>
    if (match prev with | some p => isWordChar p | none => false) then
      mentionScanAux fuel (some x) rest
    else
      match mentionTryAt s with
      | some (matched, remaining) =>
        matched :: mentionScanAux fuel (some (matched.getLastD x)) remaining
      | none => mentionScanAux fuel (some x) rest

def techMentionMatches (content : Str) : List Str :=
  mentionScanAux (content.length + 1) none content

structure ReadmeParsed where
  hasDemo : Bool
  hasDocs : Bool
  mentions : List Str
  projectType : Str
  hasMetrics : Bool
  complexity : Str

/-- `parseReadme` (lines 314–366). -/
def parseReadme (content : Str) : ReadmeParsed :=
  let truncatedContent := content.take 50000
  let lower := jsToLower truncatedContent
  { hasDemo := anyInfix ["demo".toList, "live".toList, "deployed".toList, "website".toList,
      "app.".toList, "production".toList] lower
    hasDocs := anyInfix ["documentation".toList, "docs".toList, "api reference".toList,
      "wiki".toList] lower
    mentions := (((jsSetDedup (techMentionMatches content)).map jsToLower).filter
      (fun m => decide (1 < m.length) && decide (m.length < 50))).take 50
    projectType := projectTypeOf lower
    hasMetrics := metricsTest content
    complexity := complexityOf content }


/-! ## Content fetcher (`fetchFileContent`, lines 24–82)

The upstream HTTP layer is modelled by a behaviour value: the fetch (or
`response.json()`) throwing/aborting, or a response with its `ok` flag and the
relevant fields of the GitHub contents payload (`size` is numeric and
`content`/`encoding` are strings in that payload).  `base64Decode` is an
environment facility injected as a total function (the source's own wrapper
catches and returns an empty string rather than throwing). -/

structure ContentsResponse where
  ok : Bool
  size : Option Int
  content : Option Str
  encoding : Option Str

inductive FetchBehaviour where
  | netThrow
  | jsonThrow
  | success (r : ContentsResponse)

/-- `fetchFileContent`: any throw is caught and collapsed to `none`; the
declared size (when truthy) and the post-decode length are both checked
against `maxSizeBytes`. -/
def fetchFileContent (decode : Str → Str) (beh : FetchBehaviour)
    (maxSizeBytes : Int := 1024 * 1024) : Option Str :=
  match beh with
  | .netThrow => none
  | .jsonThrow => none
  | .success r =>
    if !r.ok then none
    else if (match r.size with
        | some n => n != 0 && decide (maxSizeBytes < n)
        | none => false) then none
    else
      match r.content, r.encoding with
      | some c, some e =>
        if !c.isEmpty && e == "base64".toList then
          let decoded := decode (c.filter (fun ch => ch ≠ '\n'))
          if decide (maxSizeBytes < (decoded.length : Int)) then none else some decoded
        else none
      | _, _ => none

/-! ## Enrichment orchestrator (`enrichRepoData`, lines 498–675)

The per-repository enrichment (a fan-out of network fetches whose failures
are caught locally) is injected as `enrichOne`; the orchestrator itself
takes `repos.slice(0, limit)` — with `limit` defaulting to `10` in the
source — and maps the enrichment over it. -/

def enrichRepoData {α β : Type} (enrichOne : α → β) (repos : List α)
    (limit : Nat := 10) : List β :=
  (repos.take limit).map enrichOne

/-! ## Repository records and the listing pre-filter (lines 715–848) -/

structure GitHubRepo where
  id : Int
  full_name : Str
  owner_login : Option Str
  fork : Bool
  stargazers_count : Option Int
  forks_count : Option Int
  isPrivate : Bool
  updated_at_ms : Option Int
deriving DecidableEq

/-- Ownership test of the pre-filter (lines 815–816): the owner segment of
`full_name`, or `repo.owner?.login`, matches the normalised username. -/
def repoIsOwn (usernameLower : Str) (repo : GitHubRepo) (owner : Str) : Bool :=
  jsTrim (jsToLower owner) == usernameLower ||
    (match repo.owner_login with
     | some l => jsTrim (jsToLower l) == usernameLower
     | none => false)

/-- The relevance pre-filter predicate of `fetchAllRepos` (lines 797–845).
(`full_name` is typed as a string; a missing/non-string value, rejected by the
source's `typeof` guard, is modelled by the empty string, which the separator
check rejects as well.) -/
def repoFilter (username : Str) (repo : GitHubRepo) : Bool :=
  if repo.full_name.isEmpty then false
  else
    let parts := jsSplit '/' repo.full_name
    if parts.length < 2 then false
    else
      let owner := parts.headD []
      let usernameLower := jsTrim (jsToLower (jsTrim username))
      let isOwnRepo := repoIsOwn usernameLower repo owner
      if isOwnRepo && !repo.fork then true
      else if repo.fork && !isOwnRepo then false
      else if repo.fork && isOwnRepo then
        let stars := repo.stargazers_count.getD 0
        let forks := repo.forks_count.getD 0
        if stars < 20 && forks < 10 then false else true
      else true

/-! ## Scoring and filtering engine (`scoreAndSortRepos`, lines 851–1081)

The two floating-point divisions (contribution ratio, KB and day counts) are
modelled in `ℚ`; every comparison threshold used by the source (`0.1`,
`0.25`, integer day/KB bounds) is exactly representable, and at each integer
boundary relevant to the claims below the IEEE-754 comparison agrees with
the rational one.  `new Date(...).getTime()` is modelled by the pre-parsed
`updated_at_ms` field (`none` = invalid date, giving `Infinity` days). -/

structure ReadmeInfo where
  length : Option Int
  hasDemo : Bool
  hasDocs : Bool
  hasMetrics : Bool
  complexity : Str
deriving DecidableEq

structure EnrichedData where
  userCommitCount : Option Int
  commitCount : Option Int
  totalCodeBytes : Option Int
  languageCount : Option Int
  readme : Option ReadmeInfo
  packageJsonScripts : Option (List Str)
  detectedTechnologies : Option (List Str)
deriving DecidableEq

structure EnrichedRepoData extends GitHubRepo where
  enrichedData : Option EnrichedData
  calculatedScore : Option Int
deriving DecidableEq

/-- `daysSinceUpdate < days` (with `daysSinceUpdate = Infinity` when the
update timestamp is invalid). -/
def daysLt (updatedMs : Option Int) (now : Int) (days : Int) : Bool :=
  match updatedMs with
  | none => false
  | some t => decide ((((now - t : Int) : ℚ) / 86400000) < (days : ℚ))

/-- The contribution-gating block (lines 901–944): `none` is the `-9999`
sentinel early return, `some p` the accumulated penalty. -/
def contributionGate (isOwnRepo fork : Bool) (userCommits totalCommits : Int) : Option Int :=
  let ratioQ : ℚ :=
    if totalCommits > 0 ∧ userCommits ≥ 0 then
      min ((userCommits : ℚ) / (totalCommits : ℚ)) 1
    else if totalCommits = 0 ∧ userCommits > 0 then 1
    else 0
  if !isOwnRepo then
    if userCommits = 0 then none
    else if userCommits < 3 then some (-300)
    else if userCommits < 10 ∨ ratioQ < (1 : ℚ) / 10 then some (-200)
    else if userCommits < 20 ∨ ratioQ < (1 : ℚ) / 4 then some (-100)
    else some 0
  else if fork then
    if userCommits = 0 then none
    else if userCommits < 10 then some (-250)
    else if userCommits < 30 then some (-150)
    else some 0
  else some 0

/-- The per-repository score of `scoreAndSortRepos` (lines 855–1059). -/
def computeScore (now : Int) (usernameLower : Str) (repo : EnrichedRepoData) : Int :=
  let parts := jsSplit '/' repo.full_name
  if parts.length < 2 then 0
  else
    let owner := parts.headD []
    let isOwnRepo := jsTrim (jsToLower owner) == usernameLower
    match repo.enrichedData with
    | none =>
      let stars := repo.stargazers_count.getD 0
      let forks := repo.forks_count.getD 0
      let s := (if repo.isPrivate = false ∧ stars > 10 then (30 : Int) else 0)
        + (if forks > 5 then 20 else 0)
        + (if daysLt repo.updated_at_ms now 90 then 10 else 0)
        + (if isOwnRepo then 20 else 0)
        + (if repo.fork then -200 else 0)
      max 0 s
    | some data =>
      let userCommits := data.userCommitCount.getD 0
      let totalCommits := data.commitCount.getD 0
      match contributionGate isOwnRepo repo.fork userCommits totalCommits with
      | none => -9999
      | some gate =>
        let relevantCommits := if isOwnRepo then totalCommits else userCommits
        let commitScore : Int :=
          if relevantCommits > 500 then 100
          else if relevantCommits > 200 then 80
          else if relevantCommits > 100 then 60
          else if relevantCommits > 50 then 40
          else if relevantCommits > 20 then 20
          else if relevantCommits > 5 then 10
          else 0
        let codeBytes := data.totalCodeBytes.getD 0
        let codeKB : ℚ := if codeBytes > 0 then (codeBytes : ℚ) / 1024 else 0
        let codeScore : Int :=
          if codeKB > 1000 then 50
          else if codeKB > 500 then 40
          else if codeKB > 200 then 30
          else if codeKB > 100 then 20
          else if codeKB > 50 then 10
          else 0
        let langCount := data.languageCount.getD 0
        let langScore : Int :=
          if langCount ≥ 5 then 30
          else if langCount ≥ 3 then 20
          else if langCount ≥ 2 then 10
          else 0
        let readmeLength := (data.readme.bind ReadmeInfo.length).getD 0
        let readmeScore : Int :=
          if readmeLength > 5000 then 40
          else if readmeLength > 2000 then 30
          else if readmeLength > 1000 then 20
          else if readmeLength > 500 then 10
          else 0
        let complexityScore : Int :=
          match data.readme with
          | some ri =>
            if ri.complexity = "complex".toList then 50
            else if ri.complexity = "moderate".toList then 25
            else 0
          | none => 0
        let scripts := data.packageJsonScripts.getD []
        let scriptScore : Int :=
          (if scripts.any (fun s => jsIncludes s "test".toList) then 20 else 0)
          + (if scripts.any (fun s => jsIncludes s "build".toList) then 15 else 0)
          + (if scripts.any (fun s => jsIncludes s "lint".toList) then 10 else 0)
        let flagScore : Int :=
          (if (data.readme.map ReadmeInfo.hasDocs).getD false then 15 else 0)
          + (if (data.readme.map ReadmeInfo.hasDemo).getD false then 20 else 0)
          + (if (data.readme.map ReadmeInfo.hasMetrics).getD false then 15 else 0)
        let depCount : Int := (data.detectedTechnologies.getD []).length
        let depScore : Int :=
          if depCount > 30 then 30
          else if depCount > 20 then 20
          else if depCount > 10 then 10
          else 0
        let recencyScore : Int :=
          if daysLt repo.updated_at_ms now 30 then 30
          else if daysLt repo.updated_at_ms now 90 then 20
          else if daysLt repo.updated_at_ms now 180 then 10
          else 0
        let publicScore : Int :=
          if repo.isPrivate = false then
            let stars := repo.stargazers_count.getD 0
            let forks := repo.forks_count.getD 0
            (if stars > 100 then (50 : Int)
             else if stars > 50 then 40
             else if stars > 20 then 30
             else if stars > 10 then 20
             else if stars > 5 then 10
             else 0)
            + (if forks > 20 then 30
               else if forks > 10 then 20
               else if forks > 5 then 10
               else 0)
          else 0
        let ownBonus : Int := if isOwnRepo then 30 else 0
        let emptyReadmePenalty : Int := if readmeLength = 0 then -20 else 0
        let lowCommitPenalty : Int :=
          if isOwnRepo ∧ repo.fork = false ∧ relevantCommits < 5 then -20 else 0
        gate + commitScore + codeScore + langScore + readmeScore + complexityScore
          + scriptScore + flagScore + depScore + recencyScore + publicScore + ownBonus
          + emptyReadmePenalty + lowCommitPenalty

/-- `{ ...repo, calculatedScore }`. -/
def assignScore (now : Int) (usernameLower : Str) (r : EnrichedRepoData) : EnrichedRepoData :=
  { r with calculatedScore := some (computeScore now usernameLower r) }

/-- The repository with its `calculatedScore` field cleared: two
`EnrichedRepoData` values with the same `stripScore` describe the same
underlying repository. -/
def stripScore (r : EnrichedRepoData) : EnrichedRepoData :=
  { r with calculatedScore := none }

/-- The filter stage (lines 1061–1075). -/
def keepFilter (usernameLower : Str) (r : EnrichedRepoData) : Bool :=
  let score := r.calculatedScore
  if (match score with | some s => decide (s < -1000) | none => false) then false
  else
    let parts := jsSplit '/' r.full_name
    let isOwn := decide (2 ≤ parts.length) &&
      (jsTrim (jsToLower (parts.headD [])) == usernameLower)
    (match score with | some s => decide (0 < s) | none => false) ||
      ((match score with | some s => decide (0 ≤ s) | none => false) && isOwn)

/-- The sort key (lines 1077–1078). -/
def scoreOf (r : EnrichedRepoData) : Int := r.calculatedScore.getD 0

/-- `scoreAndSortRepos` (lines 851–1081): map the score, filter, and stable-sort
descending by score (ECMAScript `Array.prototype.sort` is stable, as is
`List.mergeSort`). -/
def scoreAndSortRepos (now : Int) (repos : List EnrichedRepoData) (username : Str) :
    List EnrichedRepoData :=
  let usernameLower := jsToLower username
  ((repos.map (assignScore now usernameLower)).filter (keepFilter usernameLower)).mergeSort
    (fun a b => decide (scoreOf b ≤ scoreOf a))

/-! ## Concrete fixtures used by spot checks and witnesses -/

/-- A rich, public, non-owned repository whose enrichment attributes zero
commits to the user. -/
def orgRepoZero : EnrichedRepoData :=
  { id := 1
    full_name := "org/y".toList
    owner_login := some "org".toList
    fork := false
    stargazers_count := some 500
    forks_count := some 30
    isPrivate := false
    updated_at_ms := some 0
    enrichedData := some
      { userCommitCount := some 0
        commitCount := some 500
        totalCodeBytes := some 10000000
        languageCount := some 6
        readme := some
          { length := some 9000
            hasDemo := true
            hasDocs := true
            hasMetrics := true
            complexity := "complex".toList }
        packageJsonScripts := some ["test".toList]
        detectedTechnologies := some [] }
    calculatedScore := none }

/-- A fresh owned, non-fork repository with zero stars and no enrichment. -/
def aliceRepoFresh : EnrichedRepoData :=
  { id := 2
    full_name := "alice/x".toList
    owner_login := some "alice".toList
    fork := false
    stargazers_count := some 0
    forks_count := some 0
    isPrivate := false
    updated_at_ms := none
    enrichedData := none
    calculatedScore := none }

/-- A repository whose `full_name` has no owner/name separator. -/
def malformedRepo : EnrichedRepoData :=
  { id := 3
    full_name := "noslash".toList
    owner_login := none
    fork := false
    stargazers_count := some 500
    forks_count := some 30
    isPrivate := false
    updated_at_ms := some 0
    enrichedData := none
    calculatedScore := none }

/-- A README of 50000 non-matching characters followed by a metrics
sentence that lies entirely beyond the 50000-character mark. -/
def readme50kCex : Str := List.replicate 50000 'a' ++ "\n5 users".toList

/-! ## Library lemmas about the JS-string helpers -/

theorem jsSplit_ne_nil (sep : Char) (s : Str) : jsSplit sep s ≠ [] := by
  cases s with
  | nil => simp [jsSplit]
  | cons c rest =>
    simp only [jsSplit]
    split
    · simp
    · split
      · simp
      · simp

theorem mem_jsSetDedupAux {α : Type} [DecidableEq α] {a : α} :
    ∀ {seen l : List α}, a ∈ jsSetDedupAux seen l → a ∉ seen
  | _, [], h => by simp [jsSetDedupAux] at h
  | seen, b :: rest, h => by
    by_cases hb : b ∈ seen
    · rw [jsSetDedupAux, if_pos hb] at h
      exact mem_jsSetDedupAux h
    · rw [jsSetDedupAux, if_neg hb] at h
      rcases List.mem_cons.mp h with rfl | h2
      · exact hb
      · have := mem_jsSetDedupAux h2
        intro ha
        exact this (List.mem_cons_of_mem _ ha)

theorem jsSetDedupAux_nodup {α : Type} [DecidableEq α] :
    ∀ (seen l : List α), (jsSetDedupAux seen l).Nodup
  | _, [] => by simp [jsSetDedupAux]
  | seen, b :: rest => by
    by_cases hb : b ∈ seen
    · rw [jsSetDedupAux, if_pos hb]
      exact jsSetDedupAux_nodup seen rest
    · rw [jsSetDedupAux, if_neg hb]
      refine List.nodup_cons.mpr ⟨?_, jsSetDedupAux_nodup _ rest⟩
      intro hmem
      exact mem_jsSetDedupAux hmem (List.mem_cons_self _ _)

theorem jsSetDedup_nodup {α : Type} [DecidableEq α] (l : List α) : (jsSetDedup l).Nodup :=
  jsSetDedupAux_nodup [] l

/-! ## Scoring-engine helper lemmas -/

theorem scoreAndSortRepos_def (now : Int) (repos : List EnrichedRepoData) (username : Str) :
    scoreAndSortRepos now repos username =
      ((repos.map (assignScore now (jsToLower username))).filter
        (keepFilter (jsToLower username))).mergeSort
        (fun a b => decide (scoreOf b ≤ scoreOf a)) := rfl

theorem computeScore_update (now : Int) (u : Str) (r : EnrichedRepoData) (s : Option Int) :
    computeScore now u { r with calculatedScore := s } = computeScore now u r := rfl

theorem computeScore_stripScore (now : Int) (u : Str) (r : EnrichedRepoData) :
    computeScore now u (stripScore r) = computeScore now u r := rfl

theorem stripScore_assignScore (now : Int) (u : Str) (r : EnrichedRepoData) :
    stripScore (assignScore now u r) = stripScore r := rfl

theorem computeScore_congr (now : Int) (u : Str) {a b : EnrichedRepoData}
    (h : stripScore a = stripScore b) : computeScore now u a = computeScore now u b := by
  calc computeScore now u a = computeScore now u (stripScore a) :=
        (computeScore_stripScore now u a).symm
    _ = computeScore now u (stripScore b) := by rw [h]
    _ = computeScore now u b := computeScore_stripScore now u b

theorem assignScore_idem (now : Int) (u : Str) (r : EnrichedRepoData) :
    assignScore now u (assignScore now u r) = assignScore now u r := rfl

theorem mem_scoreAndSortRepos {now : Int} {repos : List EnrichedRepoData} {username : Str}
    {x : EnrichedRepoData} (hx : x ∈ scoreAndSortRepos now repos username) :
    ∃ r ∈ repos, x = assignScore now (jsToLower username) r ∧
      keepFilter (jsToLower username) x = true := by
  rw [scoreAndSortRepos_def] at hx
  have hx2 := List.mem_mergeSort.mp hx
  have hkeep := List.of_mem_filter hx2
  obtain ⟨r, hr, rfl⟩ := List.mem_map.mp (List.mem_of_mem_filter hx2)
  exact ⟨r, hr, rfl, hkeep⟩

/-! ## Claim C9: idempotence of the scoring engine -/

/-- C9: applying `scoreAndSortRepos` to its own output, with the same
username, untouched enrichment data and the same current time, yields
identical scores for every repository and identical ordering (the output list
is reproduced exactly). -/
theorem scoreAndSortRepos_idempotent (now : Int) (repos : List EnrichedRepoData)
    (username : Str) :
    scoreAndSortRepos now (scoreAndSortRepos now repos username) username =
      scoreAndSortRepos now repos username := by
  have hform : ∀ x ∈ scoreAndSortRepos now repos username,
      assignScore now (jsToLower username) x = x := by
    intro x hx
    obtain ⟨r, _, rfl, _⟩ := mem_scoreAndSortRepos hx
    exact assignScore_idem now _ r
  have hkeep : ∀ x ∈ scoreAndSortRepos now repos username,
      keepFilter (jsToLower username) x = true := by
    intro x hx
    obtain ⟨r, _, _, hk⟩ := mem_scoreAndSortRepos hx
    exact hk
  conv_lhs => rw [scoreAndSortRepos_def]
  rw [List.map_congr_left hform, List.map_id', List.filter_eq_self.mpr hkeep]
  apply List.mergeSort_of_sorted
  rw [scoreAndSortRepos_def]
  apply List.sorted_mergeSort
  · intro a b c hab hbc
    simp only [decide_eq_true_eq] at hab hbc ⊢
    omega
  · intro a b
    simp only [Bool.or_eq_true, decide_eq_true_eq]
    omega

/-! ## Claims C1, C2, C10: gating and filtering -/

theorem contributionGate_nonown_zero (fork : Bool) (t : Int) :
    contributionGate false fork 0 t = none := by
  unfold contributionGate
  simp

/-- C1: a repository with an enrichment record, whose owner segment differs
(case-insensitively) from the username and whose attributed commit count is
zero, is scored with the `-9999` sentinel and no entry for it survives the
final filter, regardless of its other signals. -/
theorem nonowned_zero_commits_excluded
    (now : Int) (username : Str) (repos : List EnrichedRepoData) (r : EnrichedRepoData)
    (_hr : r ∈ repos) (d : EnrichedData) (hd : r.enrichedData = some d)
    (hparts : 2 ≤ (jsSplit '/' r.full_name).length)
    (hown : (jsTrim (jsToLower ((jsSplit '/' r.full_name).headD [])) == jsToLower username)
      = false)
    (huc : d.userCommitCount = some 0) :
    computeScore now (jsToLower username) r = -9999 ∧
      ∀ x ∈ scoreAndSortRepos now repos username, stripScore x ≠ stripScore r := by
  have h2 : ¬ ((jsSplit '/' r.full_name).length < 2) := by omega
  have hscore : computeScore now (jsToLower username) r = -9999 := by
    unfold computeScore
    simp only [hd, h2, hown, huc, if_false, ite_false, Option.getD_some,
      contributionGate_nonown_zero]
  refine ⟨hscore, ?_⟩
  intro x hx heq
  obtain ⟨r2, hr2, rfl, hk⟩ := mem_scoreAndSortRepos hx
  rw [stripScore_assignScore] at heq
  have hcs : computeScore now (jsToLower username) r2 = -9999 :=
    (computeScore_congr now _ heq).trans hscore
  unfold keepFilter at hk
  simp only [assignScore, hcs] at hk
  norm_num at hk

/-- C1 witness: the concrete scenario of the spec (`org/y`, 500 stars, 500
total commits, zero attributed commits, username `alice`). -/
theorem nonowned_zero_commits_excluded_witness :
    computeScore 0 (jsToLower "alice".toList) orgRepoZero = -9999 ∧
      ∀ x ∈ scoreAndSortRepos 0 [orgRepoZero] "alice".toList,
        stripScore x ≠ stripScore orgRepoZero :=
  nonowned_zero_commits_excluded 0 "alice".toList [orgRepoZero] orgRepoZero
    (List.mem_singleton.mpr rfl) _ rfl (by decide) (by decide) rfl

theorem keepFilter_assign_pos {now : Int} {u : Str} {r : EnrichedRepoData}
    (h : 0 < computeScore now u r) :
    keepFilter u (assignScore now u r) = true := by
  have h1 : ¬ (computeScore now u r < -1000) := by omega
  unfold keepFilter assignScore
  simp [h, h1]

/-- C2: an owned (case-insensitive owner match), non-fork repository with no
enrichment record is scored by the fallback path with at least the ownership
bonus of 20 and is kept by the final filter — in particular it is never
excluded for having zero commits (the fallback path never consults commits),
whatever its stars. -/
theorem owned_fresh_repo_kept
    (now : Int) (username : Str) (repos : List EnrichedRepoData) (r : EnrichedRepoData)
    (hr : r ∈ repos)
    (hparts : 2 ≤ (jsSplit '/' r.full_name).length)
    (hown : (jsTrim (jsToLower ((jsSplit '/' r.full_name).headD [])) == jsToLower username)
      = true)
    (hfork : r.fork = false)
    (hdata : r.enrichedData = none) :
    20 ≤ computeScore now (jsToLower username) r ∧
      assignScore now (jsToLower username) r ∈ scoreAndSortRepos now repos username := by
  have h2 : ¬ ((jsSplit '/' r.full_name).length < 2) := by omega
  have hscore : 20 ≤ computeScore now (jsToLower username) r := by
    unfold computeScore
    simp only [hdata, h2, hown, hfork, if_false, ite_false, if_true, ite_true]
    apply le_max_of_le_right
    split_ifs <;> first | contradiction | norm_num
  refine ⟨hscore, ?_⟩
  rw [scoreAndSortRepos_def, List.mem_mergeSort]
  exact List.mem_filter.mpr ⟨List.mem_map_of_mem _ hr, keepFilter_assign_pos (by omega)⟩

/-- C2 witness: the spec scenario `{owner: "alice", name: "x", fork: false,
stars: 0}` with username `"alice"` and no enrichment. -/
theorem owned_fresh_repo_kept_witness :
    20 ≤ computeScore 0 (jsToLower "alice".toList) aliceRepoFresh ∧
      assignScore 0 (jsToLower "alice".toList) aliceRepoFresh ∈
        scoreAndSortRepos 0 [aliceRepoFresh] "alice".toList :=
  owned_fresh_repo_kept 0 "alice".toList [aliceRepoFresh] aliceRepoFresh
    (List.mem_singleton.mpr rfl) (by decide) (by decide) rfl rfl

/-- C10: an entry whose `full_name` has no owner/name separator is handled
without failure: its score is the fallback `0`, it is treated as not owned,
and no entry for it survives the final filter (which keeps score-0 entries
only when owned). -/
theorem malformed_fullname_removed
    (now : Int) (username : Str) (repos : List EnrichedRepoData) (r : EnrichedRepoData)
    (_hr : r ∈ repos)
    (hparts : (jsSplit '/' r.full_name).length < 2) :
    computeScore now (jsToLower username) r = 0 ∧
      ∀ x ∈ scoreAndSortRepos now repos username, stripScore x ≠ stripScore r := by
  have hscore : computeScore now (jsToLower username) r = 0 := by
    unfold computeScore
    simp [hparts]
  refine ⟨hscore, ?_⟩
  intro x hx heq
  obtain ⟨r2, hr2, rfl, hk⟩ := mem_scoreAndSortRepos hx
  rw [stripScore_assignScore] at heq
  have hcs : computeScore now (jsToLower username) r2 = 0 :=
    (computeScore_congr now _ heq).trans hscore
  have hfn : r2.full_name = r.full_name := congrArg (fun z => z.full_name) heq
  unfold keepFilter at hk
  simp only [assignScore, hcs, hfn] at hk
  have hlen : ¬ (2 ≤ (jsSplit '/' r.full_name).length) := by omega
  simp [hlen] at hk

/-- C10 witness: a repository listed as `noslash`, with strong signals, is
scored 0 and filtered out. -/
theorem malformed_fullname_removed_witness :
    computeScore 0 (jsToLower "alice".toList) malformedRepo = 0 ∧
      ∀ x ∈ scoreAndSortRepos 0 [malformedRepo] "alice".toList,
        stripScore x ≠ stripScore malformedRepo :=
  malformed_fullname_removed 0 "alice".toList [malformedRepo] malformedRepo
    (List.mem_singleton.mpr rfl) (by decide)

/-! ## Claim C3: the ratio-0.1 boundary -/

/-- C3 counterexample: a non-owned repository with `userCommitCount = 10` and
`commitCount = 100` (contribution ratio exactly 0.1) does **not** receive the
`<10 commits or <10% ratio` tier of `-200`: neither disjunct of that tier
holds (`10 < 10` and `0.1 < 0.1` are both false). -/
theorem ratio_boundary_not_minus200 :
    contributionGate false false 10 100 ≠ some (-200) := by
  norm_num [contributionGate]

/-- C3 amended: a non-owned repository with `userCommitCount = 10` and
`commitCount = 100` falls through to the next tier, `<20 commits or <25%
ratio`, and receives `-100` (for either fork flag — the fork flag is not
consulted on the non-owned path). -/
theorem ratio_boundary_minus100 :
    ∀ fork : Bool, contributionGate false fork 10 100 = some (-100) := by
  intro fork
  norm_num [contributionGate]

/-! ## Claim C7: the enrichment limit -/

/-- C7 counterexample: with 25 repositories and the limit left to its default,
the orchestrator enriches 10 of them, not 20 — the default of the `limit`
parameter is not 20. -/
theorem enrich_limit_default_not_twenty :
    (enrichRepoData id (List.replicate 25 (0 : Nat))).length ≠ 20 := by decide

/-- C7 amended: the `limit` parameter of the enrichment orchestrator defaults
to `10` (the call sites pass 20 explicitly), and for every input list only the
first `limit` repositories are processed: the output has at most `limit`
entries and is unchanged if the input is truncated to its first `limit`
elements. -/
theorem enrich_limit_default_ten {α β : Type} (enrichOne : α → β) (repos : List α) :
    enrichRepoData enrichOne repos = enrichRepoData enrichOne repos 10 ∧
      ∀ limit : Nat, (enrichRepoData enrichOne repos limit).length ≤ limit ∧
        enrichRepoData enrichOne repos limit = enrichRepoData enrichOne (repos.take limit) limit := by
  refine ⟨rfl, fun limit => ⟨?_, ?_⟩⟩
  · unfold enrichRepoData
    rw [List.length_map]
    exact List.length_take_le limit repos
  · unfold enrichRepoData
    rw [List.take_take, Nat.min_self]

/-! ## Claim C8: the listing pre-filter -/

/-- C8: the pre-filter of `fetchAllRepos` keeps a repository exactly when its
`full_name` has an owner/name separator and, if it is a fork, it is owned by
the user (per the filter's own ownership test) and has at least 20 stars or
at least 10 forks.  Consequently it removes exactly: malformed entries,
non-owned forks, and owned forks below both thresholds; every non-fork entry
with a separator — in particular every owned non-fork repository, however
inactive — is retained. -/
theorem repoFilter_characterisation (username : Str) (repo : GitHubRepo) :
    repoFilter username repo = true ↔
      (2 ≤ (jsSplit '/' repo.full_name).length ∧
        (repo.fork = true →
          repoIsOwn (jsTrim (jsToLower (jsTrim username))) repo
              ((jsSplit '/' repo.full_name).headD []) = true ∧
            (20 ≤ repo.stargazers_count.getD 0 ∨ 10 ≤ repo.forks_count.getD 0))) := by
  unfold repoFilter
  cases hfn : repo.full_name with
  | nil => simp [jsSplit]
  | cons c t =>
    have hne : (c :: t).isEmpty = false := rfl
    rw [hne]
    simp only [Bool.false_eq_true, if_false]
    by_cases hlen : (jsSplit '/' (c :: t)).length < 2
    · simp only [hlen, if_true, ite_true]
      constructor
      · intro h; exact absurd h (by simp)
      · intro h; omega
    · simp only [hlen, if_false, ite_false]
      have h2 : 2 ≤ (jsSplit '/' (c :: t)).length := by omega
      cases hfork : repo.fork with
      | false => simp [hfork, h2]
      | true =>
        cases hown : repoIsOwn (jsTrim (jsToLower (jsTrim username))) repo
            ((jsSplit '/' (c :: t)).headD []) with
        | false => simp [hfork, hown, h2]
        | true => simp [hfork, hown, h2]

/-! ## Claim C5: the content fetcher never throws and never truncates -/

/-- C5: `fetchFileContent` is total over every upstream behaviour (throws,
aborts and `json()` failures are collapsed into the behaviour type and yield
`none`), and whenever it returns a value: the response was 2xx, any declared
(truthy) size was within `maxSizeBytes`, and the value is the *complete*
decode of the payload (newlines stripped), itself within `maxSizeBytes` —
oversized content is never returned truncated. -/
theorem fetchFileContent_safe (decode : Str → Str) (beh : FetchBehaviour)
    (maxSizeBytes : Int) (s : Str) (h : fetchFileContent decode beh maxSizeBytes = some s) :
    (s.length : Int) ≤ maxSizeBytes ∧
      ∃ r, beh = FetchBehaviour.success r ∧ r.ok = true ∧
        (∀ n, r.size = some n → n = 0 ∨ n ≤ maxSizeBytes) ∧
        ∃ c, r.content = some c ∧ s = decode (c.filter (fun ch => ch ≠ '\n')) := by
  cases beh with
  | netThrow => simp [fetchFileContent] at h
  | jsonThrow => simp [fetchFileContent] at h
  | success r =>
    simp only [fetchFileContent] at h
    by_cases hok : r.ok = true
    · simp only [hok, Bool.not_true, Bool.false_eq_true, if_false] at h
      by_cases hsz : (match r.size with
          | some n => n != 0 && decide (maxSizeBytes < n)
          | none => false) = true
      · simp [hsz] at h
      · simp only [hsz, if_false] at h
        have hsize : ∀ n, r.size = some n → n = 0 ∨ n ≤ maxSizeBytes := by
          intro n hn
          rw [hn] at hsz
          simp only [bne_iff_ne, Bool.and_eq_true, decide_eq_true_eq, ne_eq,
            not_and, not_lt] at hsz
          by_cases h0 : n = 0
          · exact Or.inl h0
          · exact Or.inr (hsz h0)
        cases hc : r.content with
        | none => simp [hc] at h
        | some c =>
          cases he : r.encoding with
          | none => simp [hc, he] at h
          | some e =>
            simp only [hc, he] at h
            simp at h
            obtain ⟨-, h1, h2⟩ := h
            have hfun : (fun ch : Char => decide (ch ≠ '\n')) =
                (fun ch : Char => !decide (ch = '\n')) := by
              funext ch
              simp
            rw [hfun]
            exact ⟨h2 ▸ h1, r, rfl, hok, hsize, c, hc, h2.symm⟩
    · simp [hok] at h

/-- C5 witness: a well-formed 2xx response within the size bound yields the
full decoded payload. -/
theorem fetchFileContent_safe_witness :
    fetchFileContent id (FetchBehaviour.success
        { ok := true, size := some 4, content := some "QUJD".toList,
          encoding := some "base64".toList }) 100 = some "QUJD".toList ∧
      ((("QUJD".toList).length : Int) ≤ 100 ∧
        ∃ r, FetchBehaviour.success
            { ok := true, size := some 4, content := some "QUJD".toList,
              encoding := some "base64".toList } = FetchBehaviour.success r ∧ r.ok = true ∧
          (∀ n, r.size = some n → n = 0 ∨ n ≤ 100) ∧
          ∃ c, r.content = some c ∧
            "QUJD".toList = id (c.filter (fun ch => ch ≠ '\n'))) :=
  ⟨by decide, fetchFileContent_safe id _ 100 "QUJD".toList (by decide)⟩

/-! ## Claim C6: README truncation -/

theorem metricsAt_cons_a (s : Str) : metricsAt ('a' :: s) = false := rfl

theorem metricsTest_cons_a (s : Str) : metricsTest ('a' :: s) = metricsTest s := by
  show (metricsAt ('a' :: s) || metricsTest s) = metricsTest s
  rw [metricsAt_cons_a, Bool.false_or]

theorem metricsTest_replicate_a (n : Nat) (s : Str) :
    metricsTest (List.replicate n 'a' ++ s) = metricsTest s := by
  induction n with
  | zero => simp
  | succ k ih => rw [List.replicate_succ, List.cons_append, metricsTest_cons_a, ih]

theorem metricsTest_replicate_a_nil (n : Nat) :
    metricsTest (List.replicate n 'a') = false := by
  have := metricsTest_replicate_a n []
  rw [List.append_nil] at this
  rw [this]
  rfl

/-- C6 counterexample: `parseReadme` does *not* depend only on the first
50000 characters — on a README whose only metrics sentence starts at
position 50001, `hasMetrics` is `true`, while on the 50000-character
truncation it is `false` (the metrics regex runs on the untruncated text). -/
theorem parseReadme_hasMetrics (c : Str) : (parseReadme c).hasMetrics = metricsTest c := rfl

theorem parseReadme_beyond_50k :
    parseReadme readme50kCex ≠ parseReadme (readme50kCex.take 50000) := by
  intro h
  have hM := congrArg ReadmeParsed.hasMetrics h
  rw [parseReadme_hasMetrics, parseReadme_hasMetrics] at hM
  have h1 : metricsTest readme50kCex = true := by
    unfold readme50kCex
    rw [metricsTest_replicate_a]
    decide
  have h2 : metricsTest (readme50kCex.take 50000) = false := by
    have htake : readme50kCex.take 50000 = List.replicate 50000 'a' := by
      unfold readme50kCex
      exact List.take_left' (List.length_replicate 50000 'a')
    rw [htake, metricsTest_replicate_a_nil]
  rw [h1, h2] at hM
  cases hM

/-- C6 amended: the 50KB truncation applies only to the lowercased text from
which `projectType`, `hasDemo` and `hasDocs` are computed — these three
fields depend only on the first 50000 characters of the README; `hasMetrics`,
`complexity` and `mentions` are computed from the full text. -/
theorem parseReadme_truncated_fields (content : Str) :
    (parseReadme content).projectType = (parseReadme (content.take 50000)).projectType ∧
      (parseReadme content).hasDemo = (parseReadme (content.take 50000)).hasDemo ∧
      (parseReadme content).hasDocs = (parseReadme (content.take 50000)).hasDocs := by
  have key : ∀ f : Str → Bool, f (jsToLower (content.take 50000)) =
      f (jsToLower ((content.take 50000).take 50000)) := by
    intro f
    rw [List.take_take, Nat.min_self]
  refine ⟨?_, key (anyInfix ["demo".toList, "live".toList, "deployed".toList,
    "website".toList, "app.".toList, "production".toList]),
    key (anyInfix ["documentation".toList, "docs".toList, "api reference".toList,
      "wiki".toList])⟩
  have := key (fun l => projectTypeOf l == "x".toList)
  show projectTypeOf (jsToLower (content.take 50000)) =
    projectTypeOf (jsToLower ((content.take 50000).take 50000))
  rw [List.take_take, Nat.min_self]

/-! ## Claim C4: parser output bounds and deduplication -/

/-- C4 counterexample: the requirements.txt parser does not deduplicate —
on `"pkg\npkg"` it returns the same name twice. -/
theorem requirements_parser_not_dedup :
    ¬ (parseRequirementsTxt "pkg\npkg".toList).Nodup := by decide

theorem dedupTake_ok {α : Type} [DecidableEq α] (l : List α) (n : Nat) :
    ((jsSetDedup l).take n).Nodup ∧ ((jsSetDedup l).take n).length ≤ n :=
  ⟨(List.take_sublist n _).nodup (jsSetDedup_nodup l), List.length_take_le n _⟩

theorem parseRequirementsTxt_length (content : Str) :
    (parseRequirementsTxt content).length ≤ 500 := by
  unfold parseRequirementsTxt
  split
  · simp
  · refine le_trans (List.length_filterMap_le _ _) ?_
    rw [List.length_map]
    refine le_trans (List.length_filter_le _ _) ?_
    rw [List.length_map]
    exact List.length_take_le _ _

theorem parseGoMod_ok (content : Str) :
    (parseGoMod content).Nodup ∧ (parseGoMod content).length ≤ 100 := by
  unfold parseGoMod
  split
  · simp
  · exact dedupTake_ok _ _

theorem parseCargoToml_ok (content : Str) :
    (parseCargoToml content).Nodup ∧ (parseCargoToml content).length ≤ 100 := by
  unfold parseCargoToml
  split
  · simp
  · exact dedupTake_ok _ _

theorem parsePomXml_ok (content : Str) :
    (parsePomXml content).Nodup ∧ (parsePomXml content).length ≤ 100 := by
  unfold parsePomXml
  split
  · simp
  · exact dedupTake_ok _ _

theorem parseBuildGradle_ok (content : Str) :
    (parseBuildGradle content).Nodup ∧ (parseBuildGradle content).length ≤ 100 := by
  unfold parseBuildGradle
  split
  · simp
  · exact dedupTake_ok _ _

theorem parseGemfile_ok (content : Str) :
    (parseGemfile content).Nodup ∧ (parseGemfile content).length ≤ 100 := by
  unfold parseGemfile
  split
  · simp
  · exact dedupTake_ok _ _

theorem parseCMakeLists_ok (content : Str) :
    (parseCMakeLists content).Nodup ∧ (parseCMakeLists content).length ≤ 100 := by
  unfold parseCMakeLists
  split
  · simp
  · exact dedupTake_ok _ _

theorem parseSetupPy_ok (content : Str) :
    (parseSetupPy content).Nodup ∧ (parseSetupPy content).length ≤ 100 := by
  unfold parseSetupPy
  split
  · simp
  · split
    · simp
    · exact dedupTake_ok _ _

theorem parsePyprojectToml_ok (content : Str) :
    (parsePyprojectToml content).Nodup ∧ (parsePyprojectToml content).length ≤ 100 := by
  unfold parsePyprojectToml
  split
  · simp
  · exact dedupTake_ok _ _

theorem parseJupyterNotebook_ok (content : Str) (parsed : Option Json) :
    (parseJupyterNotebook content parsed).imports.Nodup ∧
      (parseJupyterNotebook content parsed).imports.length ≤ 100 := by
  unfold parseJupyterNotebook
  repeat' split
  all_goals first
    | exact ⟨List.nodup_nil, by simp⟩
    | exact dedupTake_ok _ _

theorem decChar_inj_lt : ∀ (a b : Fin 10), decChar a = decChar b → (a : Nat) = b := by decide

theorem map_decChar_inj : ∀ {l1 l2 : List Nat}, (∀ d ∈ l1, d < 10) → (∀ d ∈ l2, d < 10) →
    l1.map decChar = l2.map decChar → l1 = l2
  | [], [], _, _, _ => rfl
  | [], _ :: _, _, _, h => by simp at h
  | _ :: _, [], _, _, h => by simp at h
  | a :: t1, b :: t2, h1, h2, h => by
    simp only [List.map_cons, List.cons.injEq] at h
    have ha : a < 10 := h1 a (List.mem_cons_self _ _)
    have hb : b < 10 := h2 b (List.mem_cons_self _ _)
    have hab : a = b := decChar_inj_lt ⟨a, ha⟩ ⟨b, hb⟩ h.1
    rw [hab, map_decChar_inj (fun d hd => h1 d (List.mem_cons_of_mem _ hd))
      (fun d hd => h2 d (List.mem_cons_of_mem _ hd)) h.2]

theorem natKey_inj : Function.Injective natKey := by
  intro m n h
  unfold natKey at h
  by_cases hm : m = 0 <;> by_cases hn : n = 0
  · rw [hm, hn]
  · exfalso
    rw [if_pos hm, if_neg hn] at h
    have h' : (Nat.digits 10 n).map decChar = ['0'] := by
      have h2 := congrArg List.reverse h
      simpa using h2.symm
    have hd : Nat.digits 10 n = [0] := by
      refine map_decChar_inj (fun d hd => Nat.digits_lt_base (by norm_num) hd) ?_ ?_
      · intro d hd
        simp at hd
        omega
      · rw [h']
        rfl
    have hofd := Nat.ofDigits_digits 10 n
    rw [hd] at hofd
    simp [Nat.ofDigits] at hofd
    exact hn hofd.symm
  · exfalso
    rw [if_neg hm, if_pos hn] at h
    have h' : (Nat.digits 10 m).map decChar = ['0'] := by
      have h2 := congrArg List.reverse h
      simpa using h2
    have hd : Nat.digits 10 m = [0] := by
      refine map_decChar_inj (fun d hd => Nat.digits_lt_base (by norm_num) hd) ?_ ?_
      · intro d hd
        simp at hd
        omega
      · rw [h']
        rfl
    have hofd := Nat.ofDigits_digits 10 m
    rw [hd] at hofd
    simp [Nat.ofDigits] at hofd
    exact hm hofd.symm
  · rw [if_neg hm, if_neg hn] at h
    have h2 := congrArg List.reverse h
    simp only [List.reverse_reverse] at h2
    have hd := map_decChar_inj (fun d hd => Nat.digits_lt_base (by norm_num) hd)
      (fun d hd => Nat.digits_lt_base (by norm_num) hd) h2
    calc m = Nat.ofDigits 10 (Nat.digits 10 m) := (Nat.ofDigits_digits 10 m).symm
      _ = Nat.ofDigits 10 (Nat.digits 10 n) := by rw [hd]
      _ = n := Nat.ofDigits_digits 10 n

theorem indexKeys_nodup (n : Nat) : ((List.range n).map natKey).Nodup :=
  (List.nodup_range n).map natKey_inj

theorem propKeys_nodup {j : Json} {key : Str}
    (h : jsonKeysNodup (jsTruthyOr (jsGet j key) (Json.obj []))) :
    (propKeys j key).Nodup := by
  unfold propKeys
  cases hv : jsTruthyOr (jsGet j key) (Json.obj []) with
  | obj entries =>
    rw [hv] at h
    exact h
  | arr l => exact indexKeys_nodup _
  | str s => exact indexKeys_nodup _
  | num k => exact List.nodup_nil
  | bool b => exact List.nodup_nil
  | null => exact List.nodup_nil

theorem parsePackageJson_ok (content : Str) (parsed : Option Json) (h : PkgWF parsed) :
    ∀ p, parsePackageJson content parsed = some p →
      p.dependencies.Nodup ∧ p.dependencies.length ≤ 200 ∧
      p.devDependencies.Nodup ∧ p.devDependencies.length ≤ 200 ∧
      p.scripts.Nodup ∧ p.scripts.length ≤ 50 := by
  intro p hp
  unfold parsePackageJson at hp
  split at hp
  · cases hp
  · match hpd : parsed, h with
    | none, _ => simp at hp
    | some pkg, hw =>
      simp only [] at hp
      split at hp
      · simp only [Option.some.injEq] at hp
        subst hp
        obtain ⟨h1, h2, h3⟩ := hw
        exact ⟨(List.take_sublist _ _).nodup (propKeys_nodup h1), List.length_take_le _ _,
          (List.take_sublist _ _).nodup (propKeys_nodup h2), List.length_take_le _ _,
          (List.take_sublist _ _).nodup (propKeys_nodup h3), List.length_take_le _ _⟩
      · cases hp

/-- C4 amended: every manifest parser returns a list no longer than its
documented cap, and every parser except the interpreter-dependency-list
(requirements.txt) parser deduplicates its output; the requirements.txt
parser is bounded by 500 entries but performs no deduplication.  The package
manifest parser's key lists are deduplicated under the `JSON.parse` runtime
invariant that parsed objects carry distinct keys (`PkgWF`). -/
theorem parsers_bounded_dedup (content : Str) (parsed : Option Json) (h : PkgWF parsed) :
    (parseRequirementsTxt content).length ≤ 500 ∧
    ((parseGoMod content).Nodup ∧ (parseGoMod content).length ≤ 100) ∧
    ((parseCargoToml content).Nodup ∧ (parseCargoToml content).length ≤ 100) ∧
    ((parsePomXml content).Nodup ∧ (parsePomXml content).length ≤ 100) ∧
    ((parseBuildGradle content).Nodup ∧ (parseBuildGradle content).length ≤ 100) ∧
    ((parseGemfile content).Nodup ∧ (parseGemfile content).length ≤ 100) ∧
    ((parseCMakeLists content).Nodup ∧ (parseCMakeLists content).length ≤ 100) ∧
    ((parseSetupPy content).Nodup ∧ (parseSetupPy content).length ≤ 100) ∧
    ((parsePyprojectToml content).Nodup ∧ (parsePyprojectToml content).length ≤ 100) ∧
    ((parseJupyterNotebook content parsed).imports.Nodup ∧
      (parseJupyterNotebook content parsed).imports.length ≤ 100) ∧
    (∀ p, parsePackageJson content parsed = some p →
      p.dependencies.Nodup ∧ p.dependencies.length ≤ 200 ∧
      p.devDependencies.Nodup ∧ p.devDependencies.length ≤ 200 ∧
      p.scripts.Nodup ∧ p.scripts.length ≤ 50) :=
  ⟨parseRequirementsTxt_length content, parseGoMod_ok content, parseCargoToml_ok content,
    parsePomXml_ok content, parseBuildGradle_ok content, parseGemfile_ok content,
    parseCMakeLists_ok content, parseSetupPy_ok content, parsePyprojectToml_ok content,
    parseJupyterNotebook_ok content parsed, parsePackageJson_ok content parsed h⟩

/-- C4 witness: the amended statement applied at a concrete input (a parse
failure, for which the `JSON.parse` key invariant holds vacuously). -/
theorem parsers_bounded_dedup_witness :
    PkgWF none ∧ (parseRequirementsTxt "flask\nflask".toList).length ≤ 500 ∧
      (parseGoMod "flask\nflask".toList).Nodup :=
  ⟨trivial, (parsers_bounded_dedup "flask\nflask".toList none trivial).1,
    ((parsers_bounded_dedup "flask\nflask".toList none trivial).2.1).1⟩

/-! ## Faithfulness spot checks -/

example : jsSplit '/' "org/y".toList = ["org".toList, "y".toList] := by decide
example : jsSplit '/' "".toList = [[]] := by decide
example : jsSplit '/' "ab".toList = ["ab".toList] := by decide
example : jsTrim "  a b ".toList = "a b".toList := by decide
example : jsSetDedup ["a".toList, "b".toList, "a".toList] = ["a".toList, "b".toList] := by decide
example : parseRequirementsTxt "numpy==1.2\n# c\npandas>=2\nnumpy".toList =
    ["numpy".toList, "pandas".toList, "numpy".toList] := by decide
example : parseGoMod "require github.com/pkg/errors v0.9.1\ngolang.org/x/sync v0.1.0".toList =
    ["errors".toList, "sync".toList] := by decide
example : parseCargoToml "[dependencies]\nserde = \"1\"\n[other]\ntokio = \"1\"".toList =
    ["serde".toList] := by decide
example : parseGemfile "gem \"rails\"\n  gem \"rails\"".toList = ["rails".toList] := by decide
example : parsePomXml "<artifactId>spring-core</artifactId><artifactId>spring-core</artifactId>".toList =
    ["spring-core".toList] := by decide
example : parseBuildGradle "implementation \"org.a:lib:1.0\"".toList = ["lib".toList] := by decide
example : parseCMakeLists "FIND_PACKAGE( Boost REQUIRED)".toList = ["Boost".toList] := by decide
example : parseSetupPy "setup(install_requires=[\"flask\", \"requests>=2\"])".toList =
    ["flask".toList, "requests".toList] := by decide
example : parsePyprojectToml "deps = [\"flask>=2\"]".toList = ["flask".toList] := by decide
example :
    (parseJupyterNotebook "x".toList
        (some (Json.obj [("cells".toList,
          Json.arr [Json.obj [("cell_type".toList, Json.str "code".toList),
            ("source".toList, Json.arr [Json.str "import torch\n".toList,
              Json.str "import pandas".toList])]])]))).isML = true := by decide
example :
    (parseJupyterNotebook "x".toList
        (some (Json.obj [("cells".toList,
          Json.arr [Json.obj [("cell_type".toList, Json.str "code".toList),
            ("source".toList, Json.arr [Json.str "import torch\n".toList,
              Json.str "import pandas".toList])]])]))).isDataScience = true := by decide
example :
    (parsePackageJson "x".toList
        (some (Json.obj [("dependencies".toList,
          Json.obj [("react".toList, Json.str "18".toList)])]))).map PkgManifest.dependencies =
      some ["react".toList] := by decide
example : (parseReadme "A CLI tool".toList).projectType = "cli-tool".toList := by decide
example : (parseReadme "my npm package server demo".toList).projectType = "api".toList := by
  decide
example : (parseReadme "500+ users so far".toList).hasMetrics = true := by decide
example : (parseReadme "has 500 stars".toList).hasMetrics = true := by decide
example : (parseReadme "React and Next.js with React".toList).mentions =
    ["react".toList, "next.js".toList] := by decide
example : (parseReadme "golang and go".toList).mentions = ["golang".toList, "go".toList] := by
  decide
example : (parseReadme "my c++ app".toList).mentions = [] := by decide
example : (parseReadme "![diagram](img.png)".toList).complexity = "complex".toList := by decide
example : metricsTest "x5 users".toList = true := by decide
example : jsSplitWsLen "a b  c ".toList = 4 := by decide

example : contributionGate false false 10 100 = some (-100) := by norm_num [contributionGate]
example : contributionGate false false 9 100 = some (-200) := by norm_num [contributionGate]
example : contributionGate false false 10 101 = some (-200) := by norm_num [contributionGate]
example : contributionGate false false 19 76 = some (-100) := by norm_num [contributionGate]
example : contributionGate false false 50 100 = some 0 := by norm_num [contributionGate]
example : contributionGate false false 20 81 = some (-100) := by norm_num [contributionGate]
example : contributionGate true true 0 10 = none := by decide
example : contributionGate true false 0 0 = some 0 := by decide

example : computeScore 0 (jsToLower "alice".toList) orgRepoZero = -9999 := by decide
example : scoreAndSortRepos 0 [orgRepoZero] "alice".toList = [] := by
  rw [scoreAndSortRepos_def,
    show ([orgRepoZero].map (assignScore 0 (jsToLower "alice".toList))).filter
      (keepFilter (jsToLower "alice".toList)) = [] from by decide]
  simp
example : computeScore 0 (jsToLower "alice".toList) aliceRepoFresh = 20 := by decide
example : scoreAndSortRepos 0 [aliceRepoFresh] "alice".toList =
    [assignScore 0 (jsToLower "alice".toList) aliceRepoFresh] := by
  rw [scoreAndSortRepos_def,
    show ([aliceRepoFresh].map (assignScore 0 (jsToLower "alice".toList))).filter
      (keepFilter (jsToLower "alice".toList)) =
      [assignScore 0 (jsToLower "alice".toList) aliceRepoFresh] from by decide]
  simp
example : computeScore 0 (jsToLower "alice".toList) malformedRepo = 0 := by decide
example : scoreAndSortRepos 0 [malformedRepo] "alice".toList = [] := by
  rw [scoreAndSortRepos_def,
    show ([malformedRepo].map (assignScore 0 (jsToLower "alice".toList))).filter
      (keepFilter (jsToLower "alice".toList)) = [] from by decide]
  simp
